import Mathlib

/-!
Verification of the translation_video_generator core against its
specification.  The Python sources under `app/` are shallowly embedded:
durations are rationals (Python floats are treated as exact real
arithmetic), moviepy clips become records carrying the duration and audio
data the code manipulates, and fallible operations return `Except`.
-/

namespace TVG

/-! ## Segment timing (app/video_composer.py, build_video lines 65-74) -/

/-- The fixed teaching gap constant (`teaching_gap = 0.2` in `build_video`). -/
def teaching_gap : ℚ := 1/5

/-- Result of the per-segment timing computation. -/
structure Schedule where
  en_start : ℚ
  ur_start : ℚ
  total_duration : ℚ
  deriving Repr, DecidableEq

/-- Embeds lines 65-74 of `build_video`:
`en_start = 0.0`, `ur_start = en_tts.duration + teaching_gap`,
`total_audio_duration = ur_start + ur_tts.duration + pause_after`,
then `if total_audio_duration < min_duration: total_audio_duration = min_duration`. -/
def schedule (en_duration ur_duration pause_after min_duration : ℚ) : Schedule :=
  let ur_start := en_duration + teaching_gap
  let total_audio_duration := ur_start + ur_duration + pause_after
  { en_start := 0
    ur_start := ur_start
    total_duration :=
      if total_audio_duration < min_duration then min_duration
      else total_audio_duration }

/-! ## moviepy audio model

The audio expressions `build_video` constructs are embedded as a term
language; `Audio.duration` mirrors moviepy's duration bookkeeping
(`set_start` shifts a clip's end, `CompositeAudioClip` ends at the latest
end, `loop(n)` multiplies the duration, `subclip(t0, t1)` lasts `t1 - t0`,
volume changes and audio fades keep the duration). -/
inductive Audio where
  | file (path : String) (dur : ℚ)
  | setStart (t : ℚ) (a : Audio)
  | volumex (v : ℚ) (a : Audio)
  | composite (a b : Audio)
  | afadein (t : ℚ) (a : Audio)
  | afadeout (t : ℚ) (a : Audio)
  | loop (n : ℕ) (a : Audio)
  | subclip (t0 t1 : ℚ) (a : Audio)
  deriving Repr, DecidableEq

/-- Duration of an audio expression, following moviepy semantics. -/
def Audio.duration : Audio → ℚ
  | .file _ d => d
  | .setStart t a => t + a.duration
  | .volumex _ a => a.duration
  | .composite a b => max a.duration b.duration
  | .afadein _ a => a.duration
  | .afadeout _ a => a.duration
  | .loop n a => n * a.duration
  | .subclip t0 t1 _ => t1 - t0

/-! ## moviepy video-clip model -/

/-- A moviepy video clip as used by `build_video`: the duration it was
given, its attached audio, and the list of visual effects applied
(fades record their duration argument but leave the clip duration
untouched, as in moviepy). -/
structure VideoClip where
  duration : ℚ
  audio : Option Audio
  fx : List (String × ℚ)
  deriving Repr, DecidableEq

/-- `ImageClip(img_array)` before `set_duration` is called. -/
def imageClip : VideoClip := ⟨0, none, []⟩

/-- `clip.set_duration(d)`. -/
def set_duration (d : ℚ) (c : VideoClip) : VideoClip := { c with duration := d }

/-- `clip.set_audio(a)`. -/
def set_audio (a : Audio) (c : VideoClip) : VideoClip := { c with audio := some a }

/-- `clip.fadein(t)`: records the effect, keeps the duration. -/
def fadein (t : ℚ) (c : VideoClip) : VideoClip :=
  { c with fx := c.fx ++ [("fadein", t)] }

/-- `clip.fadeout(t)`: records the effect, keeps the duration. -/
def fadeout (t : ℚ) (c : VideoClip) : VideoClip :=
  { c with fx := c.fx ++ [("fadeout", t)] }

/-- The per-segment data `build_video` obtains before the loop body runs:
the two measured speech durations, the per-segment overrides, and the two
temp audio paths produced by TTS. -/
structure SegmentTiming where
  en_dur : ℚ
  ur_dur : ℚ
  pause_after : ℚ
  min_duration : ℚ
  en_path : String
  ur_path : String
  deriving Repr, DecidableEq

/-- Embeds the loop body of `build_video` (lines 65-96): schedule the two
speech tracks, give the still frame the segment's total duration, mix the
two tracks with audio fades, attach the mix and apply the 0.5s visual
fade-in/fade-out. -/
def segment_clip (s : SegmentTiming) : VideoClip :=
  let sch := schedule s.en_dur s.ur_dur s.pause_after s.min_duration
  let img_clip := set_duration sch.total_duration imageClip
  let en_track := Audio.volumex 1 (Audio.setStart sch.en_start (.file s.en_path s.en_dur))
  let ur_track := Audio.volumex 1 (Audio.setStart sch.ur_start (.file s.ur_path s.ur_dur))
  let mixed := Audio.afadeout (3/25) (Audio.afadein (3/25) (.composite en_track ur_track))
  fadeout (1/2) (fadein (1/2) (set_audio mixed img_clip))

/-- Start offsets of sequentially placed clips: the clip after one of
duration `d` starting at `t` starts at `t + d`. -/
def startsFrom (t : ℚ) : List ℚ → List ℚ
  | [] => []
  | d :: ds => t :: startsFrom (t + d) ds

/-- The assembled timeline: each clip's start offset, the clips in order,
the total duration, the combined audio, and the normalized fps/size. -/
structure Timeline where
  starts : List ℚ
  clips : List VideoClip
  duration : ℚ
  audio : Option Audio
  fps : ℕ
  size : ℕ × ℕ
  deriving Repr, DecidableEq

/-- Overlay a list of audio clips into one composite (none if empty). -/
def mixAll : List Audio → Option Audio
  | [] => none
  | a :: rest =>
    match mixAll rest with
    | none => some a
    | some b => some (.composite a b)

/-- Each clip's audio shifted to the clip's start offset in the timeline. -/
def placedAudios (starts : List ℚ) (clips : List VideoClip) : List Audio :=
  (starts.zip clips).filterMap fun sc => sc.2.audio.map (Audio.setStart sc.1)

/-- `concatenate_videoclips(clips, method="compose")`: clips are placed one
after another in the given order with no gap; the result's duration is the
sum of the clip durations. -/
def concatenate_videoclips (clips : List VideoClip) : Timeline :=
  let durs := clips.map VideoClip.duration
  { starts := startsFrom 0 durs
    clips := clips
    duration := durs.sum
    audio := mixAll (placedAudios (startsFrom 0 durs) clips)
    fps := 0
    size := (0, 0) }

/-- `final.set_fps(FPS)`. -/
def set_fps (f : ℕ) (tl : Timeline) : Timeline := { tl with fps := f }

/-- `final.resize((VIDEO_WIDTH, VIDEO_HEIGHT))`. -/
def resize (sz : ℕ × ℕ) (tl : Timeline) : Timeline := { tl with size := sz }

/-- VIDEO_WIDTH, VIDEO_HEIGHT, FPS from app/config.py. -/
def VIDEO_WIDTH : ℕ := 1080

def VIDEO_HEIGHT : ℕ := 1920

def FPS : ℕ := 24

/-- Lines 54-100 of `build_video`: build one clip per segment in source
order, concatenate, normalize fps and size. -/
def build_timeline (segs : List SegmentTiming) : Timeline :=
  resize (VIDEO_WIDTH, VIDEO_HEIGHT)
    (set_fps FPS (concatenate_videoclips (segs.map segment_clip)))

/-! ## Background music (app/video_composer.py lines 103-129) -/

/-- Lines 109-112: if the music is shorter than the video, loop it
`int(video_duration / bgm_duration) + 1` times. -/
def bgm_looped (bgm : Audio) (video_duration : ℚ) : Audio :=
  if bgm.duration < video_duration then
    Audio.loop (Int.toNat ⌊video_duration / bgm.duration⌋ + 1) bgm
  else bgm

/-- Line 115: `bgm_audio.subclip(0, video_duration)` after optional looping. -/
def bgm_trimmed (bgm : Audio) (video_duration : ℚ) : Audio :=
  Audio.subclip 0 video_duration (bgm_looped bgm video_duration)

/-- Lines 103-129 of `build_video`: the BGM block.  `r` is the outcome of
`AudioFileClip(bgm_path)` (everything inside the `try` can raise); on
failure the timeline is returned unchanged and a warning is appended to the
log; on success the looped/trimmed/attenuated music is mixed additively
with the existing audio. -/
def add_bgm (final : Timeline) (r : Except String Audio) (bgm_volume : ℚ)
    (log : List String) : Timeline × List String :=
  match r with
  | .error e => (final, log ++ ["Warning: Could not add BGM: " ++ e])
  | .ok bgm_audio =>
    let bgm2 := Audio.volumex bgm_volume (bgm_trimmed bgm_audio final.duration)
    match final.audio with
    | some a => ({ final with audio := some (.composite a bgm2) }, log)
    | none => ({ final with audio := some bgm2 }, log)

/-- `build_video` from validated segments onward: empty scripts are
rejected, then the timeline is assembled; if a BGM path was supplied, its
load outcome `r` is handled by `add_bgm`; on success the output path is
returned together with the final timeline and the log. -/
def build_video_model (segs : List SegmentTiming)
    (bgm_load : Option (Except String Audio)) (bgm_volume : ℚ)
    (output_path : String) : Except String (String × Timeline × List String) :=
  if segs.isEmpty then .error "Script is empty"
  else
    let final0 := build_timeline segs
    match bgm_load with
    | none => .ok (output_path, final0, [])
    | some r =>
      let p := add_bgm final0 r bgm_volume []
      .ok (output_path, p.1, p.2)

/-- A concrete segment used by witnesses: 1s English, 1s Urdu, no overrides. -/
def segEx : SegmentTiming := ⟨1, 1, 0, 0, "en.mp3", "ur.mp3"⟩

/-! ## Script validation (app/video_composer.py, _load_script and lines 39-41) -/

/-- A raw script entry as parsed from JSON: any key may be absent.
`pair.get(key, default)` in the loop body supplies defaults for absent
keys. -/
structure ScriptEntry where
  en : Option String
  ur : Option String
  pause_after : Option ℚ
  min_duration : Option ℚ
  deriving Repr, DecidableEq

/-- The parsed JSON value handed to `_load_script`: either a list of
objects or anything else. -/
inductive ScriptValue where
  | list (entries : List ScriptEntry)
  | other
  deriving Repr, DecidableEq

/-- `_load_script` (lines 19-24): only a non-list parse is rejected; the
entries themselves are not inspected. -/
def load_script (v : ScriptValue) : Except String (List ScriptEntry) :=
  match v with
  | .list xs => .ok xs
  | .other => .error "Script must be a list of \x7ben, ur\x7d objects"

/-- `pair.get("en", "")` in the loop body. -/
def entry_en (e : ScriptEntry) : String := e.en.getD ""

/-- `pair.get("ur", "")` in the loop body. -/
def entry_ur (e : ScriptEntry) : String := e.ur.getD ""

/-- Observable steps of a `build_video` run, in program order. -/
inductive Step where
  | validated
  | rendered (i : ℕ)
  | encoded (path : String)
  deriving Repr, DecidableEq

/-- The control skeleton of `build_video` (lines 39-41 and onward): the
script is parsed and checked first; an error there aborts before any
segment is rendered and before any output is encoded; otherwise every
segment is processed in order and the result is encoded to the output
path. -/
def build_video_steps (v : ScriptValue) (output_path : String) :
    Except String (List Step) :=
  match load_script v with
  | .error e => .error e
  | .ok segs =>
    if segs.isEmpty then .error "Script is empty"
    else .ok ([Step.validated] ++ (List.range segs.length).map Step.rendered
      ++ [Step.encoded output_path])

/-! ## Font resolution and loading (app/fonts.py) -/

/-- `str.lower` on the ASCII names and paths used here. -/
def strLower (s : String) : String := String.mk (s.data.map Char.toLower)

/-- Character-list test: the first list starts the second. -/
def charsStart : List Char → List Char → Bool
  | [], _ => true
  | _ :: _, [] => false
  | a :: as, b :: bs => a == b && charsStart as bs

/-- Character-list substring test. -/
def charsContain : List Char → List Char → Bool
  | n, [] => n.isEmpty
  | n, h :: hs => charsStart n (h :: hs) || charsContain n hs

/-- Python `needle in hay` on strings. -/
def strIn (needle hay : String) : Bool := charsContain needle.data hay.data

/-- Characters after the last path separator. -/
def lastComponent (cur : List Char) : List Char → List Char
  | [] => cur.reverse
  | c :: cs =>
    if c = '/' || c = '\\' then lastComponent [] cs
    else lastComponent (c :: cur) cs

/-- `os.path.basename`: the component after the last path separator. -/
def basename (p : String) : String := String.mk (lastComponent [] p.data)

/-- The facts font discovery consults: the candidate font files collected
by `_candidate_font_paths`, the `fonts_config.json` urdu entry, which paths
exist on disk, and which of them PIL can load. -/
structure FontEnv where
  candidates : List String
  config_urdu : Option String
  files : List String
  loadable : List String
  deriving Repr, DecidableEq

/-- `PREFERRED_FONTS_URDU` from app/fonts.py — note that `"Arial"` is the
first preference. -/
def PREFERRED_FONTS_URDU : List String :=
  ["Arial", "Noto Nastaliq Urdu", "Jameel Noori Nastaleeq",
   "Jameel Noori Nastaleeq Kasheeda", "Nafees Web Naskh", "Nafees Nastaleeq"]

/-- `os.path.isfile`. -/
def isfile (env : FontEnv) (p : String) : Bool := env.files.contains p

/-- Python dict assignment for the `lower_map` comprehension: the first
insertion of a key fixes its position, later duplicates overwrite the
value. -/
def dictInsert (m : List (String × String)) (k v : String) :
    List (String × String) :=
  if m.any (fun kv => kv.1 == k) then
    m.map (fun kv => if kv.1 == k then (k, v) else kv)
  else m ++ [(k, v)]

/-- `{os.path.basename(p).lower(): p for p in candidates}`. -/
def lowerMap (cands : List String) : List (String × String) :=
  cands.foldl (fun m p => dictInsert m (strLower (basename p)) p) []

/-- The inner loop of `_find_font_by_preferred_names`: first map entry
whose key contains the lowered name. -/
def findInMap (nameLower : String) : List (String × String) → Option String
  | [] => none
  | (base, full) :: rest =>
    if strIn nameLower base then some full else findInMap nameLower rest

/-- The outer loop of `_find_font_by_preferred_names`. -/
def findPreferred (m : List (String × String)) : List String → Option String
  | [] => none
  | name :: rest =>
    match findInMap (strLower name) m with
    | some full => some full
    | none => findPreferred m rest

/-- `_find_font_by_preferred_names` (fonts.py lines 64-72). -/
def find_font_by_preferred_names (preferred cands : List String) :
    Option String :=
  findPreferred (lowerMap cands) preferred

/-- The tag scan of `get_urdu_font_path` (lines 85-89). -/
def urdu_tag_scan (cands : List String) : Option String :=
  cands.find? fun p =>
    let base := strLower (basename p)
    strIn "arab" base || strIn "urdu" base || strIn "naskh" base ||
      strIn "nastaliq" base

/-- The Arial fallback scan of `get_urdu_font_path` (lines 90-93). -/
def urdu_arial_scan (cands : List String) : Option String :=
  cands.find? fun p => strIn "arial" (strLower (basename p))

/-- `get_urdu_font_path` (fonts.py lines 75-94): override wins, then a
valid configured path, then the preferred-name search (Arial first!), then
the arab/urdu/naskh/nastaliq tag scan, then any Arial, else nothing. -/
def get_urdu_font_path (env : FontEnv) (override_path : Option String) :
    Option String :=
  if override_path.getD "" ≠ "" then override_path
  else
    match env.config_urdu with
    | some c =>
      if isfile env c then some c
      else
        match find_font_by_preferred_names PREFERRED_FONTS_URDU env.candidates with
        | some p => some p
        | none =>
          match urdu_tag_scan env.candidates with
          | some p => some p
          | none => urdu_arial_scan env.candidates
    | none =>
      match find_font_by_preferred_names PREFERRED_FONTS_URDU env.candidates with
      | some p => some p
      | none =>
        match urdu_tag_scan env.candidates with
        | some p => some p
        | none => urdu_arial_scan env.candidates

/-- A PIL font handle produced by `ImageFont.truetype(path, size)`. -/
structure Font where
  path : String
  size : ℕ
  deriving Repr, DecidableEq

/-- Single-quote character, for Python `repr` of a string. -/
def sq : String := String.singleton (Char.ofNat 39)

/-- Python `repr` of a string as interpolated by `f"...{path!r}"`. -/
def pyRepr (s : String) : String := sq ++ s ++ sq

/-- `load_font` (fonts.py lines 115-122).  `exc` is the text of the PIL
exception raised when a present file is not a loadable font.  A present,
loadable path yields a font for exactly that path; anything else raises an
error naming the requested path. -/
def load_font (env : FontEnv) (exc : String) (path : Option String)
    (size : ℕ) : Except String Font :=
  match path with
  | some p =>
    if p ≠ "" && isfile env p then
      if env.loadable.contains p then .ok ⟨p, size⟩
      else .error ("Failed to load font at " ++ p ++ ": " ++ exc)
    else .error ("Font path is missing or does not exist: " ++ pyRepr p)
  | none => .error "Font path is missing or does not exist: None"

/-! ## Output-file footprint (app/video_composer.py lines 131-140) -/

/-- Injected outcomes of the external stages of a render. -/
inductive RunOutcome where
  | ok
  | synthFail (msg : String)
  | encodeFail (msg : String)
  deriving Repr, DecidableEq

/-- File-system effects at the output destination. -/
inductive FSEffect where
  | completeFile (path : String)
  | incompleteFile (path : String)
  | renamed (src dst : String)
  deriving Repr, DecidableEq

/-- The destination-path footprint of `build_video`: validation and all
per-segment synthesis happen before line 131, so failures there touch the
destination not at all; `write_videofile` is then called on `output_path`
itself, so a successful encode produces the file in place and an encode
failure interrupts a file already being written at that very path.  No
temporary-location write and no rename exist anywhere in the function. -/
def build_video_run (script_is_list script_nonempty : Bool)
    (outcome : RunOutcome) (output_path : String) :
    List FSEffect × Except String String :=
  if ¬ script_is_list then
    ([], .error "Script must be a list of \x7ben, ur\x7d objects")
  else if ¬ script_nonempty then ([], .error "Script is empty")
  else
    match outcome with
    | .synthFail msg => ([], .error msg)
    | .encodeFail msg => ([.incompleteFile output_path], .error msg)
    | .ok => ([.completeFile output_path], .ok output_path)

/-! ## Greedy text wrapping (app/urdu_text.py — not among the sources)

`caption_renderer.py` imports `wrap_text_rtl`, `wrap_text_ltr` and
`measure_multiline` from `app/urdu_text.py`, a module of this repository
that is not present under the available sources, so the wrapper is
modelled from the spec. -/

/-- Modelled from the spec: the measured width of a candidate line, for a
per-token width function `w` and an inter-token space width `sw` — token
widths plus one space between adjacent tokens. -/
def lineWidth (w : String → ℕ) (sw : ℕ) (line : List String) : ℕ :=
  (line.map w).sum + sw * (line.length - 1)

/-- Modelled from the spec (§4.1): greedy accumulation — keep adding the
next token to the current line while the line's measured width stays within
`maxW`; otherwise emit the line and start a new one with that token.  A
token wider than `maxW` starts its own line and, being already over budget,
is emitted alone. -/
def wrapAux (w : String → ℕ) (sw maxW : ℕ) :
    List String → List String → List (List String)
  | cur, [] => [cur]
  | cur, t :: ts =>
    if lineWidth w sw (cur ++ [t]) ≤ maxW then wrapAux w sw maxW (cur ++ [t]) ts
    else cur :: wrapAux w sw maxW [t] ts

/-- Modelled from the spec: wrap a token list; the empty text yields an
empty line sequence. -/
def wrapTokens (w : String → ℕ) (sw maxW : ℕ) : List String → List (List String)
  | [] => []
  | t :: ts => wrapAux w sw maxW [t] ts

/-- Maximal non-whitespace runs of a character list; `cur` holds the
(reversed) run being read. -/
def splitTokens (cur : List Char) : List Char → List String
  | [] => if cur.isEmpty then [] else [String.mk cur.reverse]
  | c :: cs =>
    if c.isWhitespace then
      if cur.isEmpty then splitTokens [] cs
      else String.mk cur.reverse :: splitTokens [] cs
    else splitTokens (c :: cur) cs

/-- Modelled from the spec: tokens are maximal non-whitespace runs. -/
def tokenize (s : String) : List String := splitTokens [] s.data

/-- Modelled from the spec: left-to-right greedy wrap of a string. -/
def wrap_text_ltr (w : String → ℕ) (sw maxW : ℕ) (text : String) :
    List (List String) :=
  wrapTokens w sw maxW (tokenize text)

/-- Modelled from the spec: right-to-left wrap breaks at the same places
(the wrapper only decides where to break, not how to shape); lines are
reversed into display order. -/
def wrap_text_rtl (w : String → ℕ) (sw maxW : ℕ) (text : String) :
    List (List String) :=
  (wrapTokens w sw maxW (tokenize text)).map List.reverse

/-- The example width function used by concrete wrap evaluations: 20 pixels
per character. -/
def wEx : String → ℕ := fun s => 20 * s.length

/-! ## Theorems -/

lemma startsFrom_length (t : ℚ) (ds : List ℚ) :
    (startsFrom t ds).length = ds.length := by
  induction ds generalizing t with
  | nil => rfl
  | cons d ds ih => simp [startsFrom, ih]

lemma startsFrom_getD_succ (t : ℚ) (ds : List ℚ) (i : ℕ) (h : i + 1 < ds.length) :
    (startsFrom t ds).getD (i+1) 0 = (startsFrom t ds).getD i 0 + ds.getD i 0 := by
  induction ds generalizing t i with
  | nil => simp at h
  | cons d ds ih =>
    cases i with
    | zero =>
      cases ds with
      | nil => simp at h
      | cons e es => simp [startsFrom]
    | succ j =>
      have h2 : j + 1 < ds.length := by simpa using h
      simpa [startsFrom, List.getD_cons_succ] using ih (t + d) j h2

lemma segment_clip_duration (s : SegmentTiming) :
    (segment_clip s).duration =
      (schedule s.en_dur s.ur_dur s.pause_after s.min_duration).total_duration := rfl

lemma schedule_ur_start (en ur pa md : ℚ) :
    (schedule en ur pa md).ur_start = en + teaching_gap := rfl

lemma schedule_total (en ur pa md : ℚ) :
    (schedule en ur pa md).total_duration = max (en + teaching_gap + ur + pa) md := by
  simp only [schedule]
  rcases lt_or_le (en + teaching_gap + ur + pa) md with h | h
  · simp [if_pos h, max_eq_right h.le]
  · simp [if_neg (not_lt.mpr h), max_eq_left h]

/-- C1: For every segment with non-negative `en_duration`, `ur_duration`,
`pause_after` and `min_duration`, the computed schedule satisfies exactly
`ur_start = en_duration + 0.2` and
`total_duration = max (ur_start + ur_duration + pause_after) min_duration`;
in particular `en=1.0, ur=1.2, pause=0, min=0` gives `ur_start = 1.2` and
`total_duration = 2.4`, and raising `min_duration` to `5.0` gives
`total_duration = 5.0` with `ur_start` unchanged. -/
theorem C1_schedule_invariant (en ur pa md : ℚ)
    (hen : 0 ≤ en) (hur : 0 ≤ ur) (hpa : 0 ≤ pa) (hmd : 0 ≤ md) :
    (schedule en ur pa md).ur_start = en + 1/5 ∧
    (schedule en ur pa md).total_duration =
      max ((schedule en ur pa md).ur_start + ur + pa) md ∧
    (schedule 1 (6/5) 0 0).ur_start = 6/5 ∧
    (schedule 1 (6/5) 0 0).total_duration = 12/5 ∧
    (schedule 1 (6/5) 0 5).total_duration = 5 ∧
    (schedule 1 (6/5) 0 5).ur_start = 6/5 := by
  refine ⟨rfl, ?_, ?_, ?_, ?_, ?_⟩
  · rw [schedule_ur_start, schedule_total]
  · rw [schedule_ur_start]; norm_num [teaching_gap]
  · rw [schedule_total]; norm_num [teaching_gap]
  · rw [schedule_total]; norm_num [teaching_gap]
  · rw [schedule_ur_start]; norm_num [teaching_gap]

/-- Witness for C1 at `en=1, ur=6/5, pa=0, md=0`. -/
theorem C1_schedule_invariant_witness :
    (schedule 1 (6/5) 0 0).ur_start = 1 + 1/5 ∧
    (schedule 1 (6/5) 0 0).total_duration =
      max ((schedule 1 (6/5) 0 0).ur_start + 6/5 + 0) 0 ∧
    (schedule 1 (6/5) 0 0).ur_start = 6/5 ∧
    (schedule 1 (6/5) 0 0).total_duration = 12/5 ∧
    (schedule 1 (6/5) 0 5).total_duration = 5 ∧
    (schedule 1 (6/5) 0 5).ur_start = 6/5 :=
  C1_schedule_invariant 1 (6/5) 0 0 (by norm_num) (by norm_num) le_rfl le_rfl

/-- C2 counterexample: with both speech durations 0 and
`pause_after = min_duration = 0` the code computes a total duration of
`0.2` (the teaching gap is always added), not `max pause_after min_duration = 0`. -/
theorem C2_counterexample :
    (schedule 0 0 0 0).total_duration = 1/5 ∧
    (schedule 0 0 0 0).total_duration ≠ max (0:ℚ) 0 := by
  constructor
  · rw [schedule_total]; norm_num [teaching_gap]
  · rw [schedule_total]; norm_num [teaching_gap]

/-- C2 (amended): in the degenerate case where both speech durations are 0,
the computed total duration equals
`max (pause_after + teaching_gap) min_duration` (the fixed 0.2s teaching gap
is always included), and for all non-negative inputs the computed total
duration is at least `teaching_gap`, hence strictly positive — never zero or
negative, even when `pause_after = min_duration = 0`. -/
theorem C2_degenerate_amended (pa md en ur : ℚ)
    (hen : 0 ≤ en) (hur : 0 ≤ ur) (hpa : 0 ≤ pa) (hmd : 0 ≤ md) :
    (schedule 0 0 pa md).total_duration = max (pa + teaching_gap) md ∧
    teaching_gap ≤ (schedule en ur pa md).total_duration ∧
    0 < (schedule en ur pa md).total_duration := by
  have hkey : teaching_gap ≤ (schedule en ur pa md).total_duration := by
    rw [schedule_total]
    refine le_trans ?_ (le_max_left _ _)
    linarith
  refine ⟨?_, hkey, lt_of_lt_of_le (by norm_num [teaching_gap]) hkey⟩
  rw [schedule_total]
  congr 1
  ring

/-- Witness for the amended C2 at `pa = 1, md = 0, en = 0, ur = 0`. -/
theorem C2_degenerate_amended_witness :
    (schedule 0 0 1 0).total_duration = max (1 + teaching_gap) 0 ∧
    teaching_gap ≤ (schedule 0 0 1 0).total_duration ∧
    0 < (schedule 0 0 1 0).total_duration :=
  C2_degenerate_amended 1 0 0 0 le_rfl le_rfl (by norm_num) le_rfl

/-- C10: the computed total duration is monotone non-decreasing in each of
the four inputs separately, and the Urdu start offset depends only on
`en_duration`. -/
theorem C10_schedule_monotone (en ur pa md d : ℚ)
    (hen : 0 ≤ en) (hur : 0 ≤ ur) (hpa : 0 ≤ pa) (hmd : 0 ≤ md) (hd : 0 ≤ d) :
    (schedule en ur pa md).total_duration ≤ (schedule (en + d) ur pa md).total_duration ∧
    (schedule en ur pa md).total_duration ≤ (schedule en (ur + d) pa md).total_duration ∧
    (schedule en ur pa md).total_duration ≤ (schedule en ur (pa + d) md).total_duration ∧
    (schedule en ur pa md).total_duration ≤ (schedule en ur pa (md + d)).total_duration ∧
    (schedule en (ur + d) pa md).ur_start = (schedule en ur pa md).ur_start ∧
    (schedule en ur (pa + d) md).ur_start = (schedule en ur pa md).ur_start ∧
    (schedule en ur pa (md + d)).ur_start = (schedule en ur pa md).ur_start := by
  simp only [schedule_total, schedule_ur_start]
  refine ⟨?_, ?_, ?_, ?_, trivial, trivial, trivial⟩ <;>
    exact max_le_max (by linarith) (by linarith)

/-- C3: for any script with at least one segment the assembled timeline's
duration equals the sum of the per-segment total durations; clips appear in
source order; each segment clip's duration is its scheduled total; visual
fades never change a clip's duration; the first start offset is 0 and each
subsequent clip starts exactly where the previous one ends (no gaps, no
overlaps). -/
theorem C3_timeline_concatenation (segs : List SegmentTiming) (h : segs ≠ []) :
    (build_timeline segs).duration =
      (segs.map fun s =>
        (schedule s.en_dur s.ur_dur s.pause_after s.min_duration).total_duration).sum ∧
    (build_timeline segs).clips = segs.map segment_clip ∧
    (∀ s : SegmentTiming, (segment_clip s).duration =
      (schedule s.en_dur s.ur_dur s.pause_after s.min_duration).total_duration) ∧
    (∀ (c : VideoClip) (t : ℚ),
      (fadein t c).duration = c.duration ∧ (fadeout t c).duration = c.duration) ∧
    (build_timeline segs).starts.getD 0 0 = 0 ∧
    (∀ i : ℕ, i + 1 < (build_timeline segs).starts.length →
      (build_timeline segs).starts.getD (i+1) 0 =
        (build_timeline segs).starts.getD i 0 +
          ((build_timeline segs).clips.map VideoClip.duration).getD i 0) := by
  refine ⟨?_, rfl, fun s => rfl, fun c t => ⟨rfl, rfl⟩, ?_, ?_⟩
  · show ((segs.map segment_clip).map VideoClip.duration).sum = _
    rw [List.map_map]
    rfl
  · cases segs with
    | nil => exact absurd rfl h
    | cons a l =>
      simp [build_timeline, resize, set_fps, concatenate_videoclips, startsFrom]
  · intro i hi
    have hi2 : i + 1 < ((segs.map segment_clip).map VideoClip.duration).length := by
      simpa [build_timeline, resize, set_fps, concatenate_videoclips,
        startsFrom_length] using hi
    simpa [build_timeline, resize, set_fps, concatenate_videoclips] using
      startsFrom_getD_succ 0 ((segs.map segment_clip).map VideoClip.duration) i hi2

/-- Witness for C3 at the one-segment script `[segEx]`. -/
theorem C3_timeline_concatenation_witness :
    (build_timeline [segEx]).duration =
      ([segEx].map fun s =>
        (schedule s.en_dur s.ur_dur s.pause_after s.min_duration).total_duration).sum ∧
    (build_timeline [segEx]).clips = [segEx].map segment_clip ∧
    (∀ s : SegmentTiming, (segment_clip s).duration =
      (schedule s.en_dur s.ur_dur s.pause_after s.min_duration).total_duration) ∧
    (∀ (c : VideoClip) (t : ℚ),
      (fadein t c).duration = c.duration ∧ (fadeout t c).duration = c.duration) ∧
    (build_timeline [segEx]).starts.getD 0 0 = 0 ∧
    (∀ i : ℕ, i + 1 < (build_timeline [segEx]).starts.length →
      (build_timeline [segEx]).starts.getD (i+1) 0 =
        (build_timeline [segEx]).starts.getD i 0 +
          ((build_timeline [segEx]).clips.map VideoClip.duration).getD i 0) :=
  C3_timeline_concatenation [segEx] (List.cons_ne_nil _ _)

/-- C4: for positive music and timeline durations, the processed
background-music track has duration exactly the timeline's duration; before
trimming, the (possibly looped) music covers the whole timeline; music
shorter than the timeline is looped by whole-copy repetition with
`floor(video_duration / bgm_duration) + 1` copies, and music at least as
long is trimmed directly without looping. -/
theorem C4_bgm_exact_length (path : String) (b v : ℚ) (hb : 0 < b) (hv : 0 < v) :
    (bgm_trimmed (.file path b) v).duration = v ∧
    v ≤ (bgm_looped (.file path b) v).duration ∧
    (b < v → bgm_looped (.file path b) v =
      .loop (Int.toNat ⌊v / b⌋ + 1) (.file path b)) ∧
    (¬ b < v → bgm_looped (.file path b) v = .file path b) := by
  have hface : (Audio.file path b).duration = b := rfl
  refine ⟨?_, ?_, ?_, ?_⟩
  · simp [bgm_trimmed, Audio.duration]
  · by_cases hlt : b < v
    · rw [bgm_looped, hface, if_pos hlt]
      show v ≤ ((Int.toNat ⌊v / b⌋ + 1 : ℕ) : ℚ) * (Audio.file path b).duration
      rw [hface]
      have h0 : (0:ℚ) ≤ v / b := le_of_lt (div_pos hv hb)
      have hfl0 : (0:ℤ) ≤ ⌊v / b⌋ := Int.floor_nonneg.mpr h0
      have h1 : ((Int.toNat ⌊v / b⌋ : ℕ) : ℚ) = ((⌊v / b⌋ : ℤ) : ℚ) := by
        exact_mod_cast Int.toNat_of_nonneg hfl0
      have hcast : ((Int.toNat ⌊v / b⌋ + 1 : ℕ) : ℚ) = (⌊v / b⌋ : ℚ) + 1 := by
        rw [Nat.cast_add, Nat.cast_one, h1]
      rw [hcast]
      have hdx : v / b < (⌊v / b⌋ : ℚ) + 1 := Int.lt_floor_add_one _
      calc v = (v / b) * b := (div_mul_cancel₀ v (ne_of_gt hb)).symm
        _ ≤ ((⌊v / b⌋ : ℚ) + 1) * b := by nlinarith
    · rw [bgm_looped, hface, if_neg hlt, hface]
      exact le_of_not_lt hlt
  · intro hlt
    simp [bgm_looped, hface, if_pos hlt]
  · intro hlt
    simp [bgm_looped, hface, hlt]

/-- Witness for C4 at `path = "m.mp3"`, `b = 1`, `v = 5/2` (music shorter
than the timeline). -/
theorem C4_bgm_exact_length_witness :
    (bgm_trimmed (.file "m.mp3" 1) (5/2)).duration = 5/2 ∧
    (5/2 : ℚ) ≤ (bgm_looped (.file "m.mp3" 1) (5/2)).duration ∧
    ((1:ℚ) < 5/2 → bgm_looped (.file "m.mp3" 1) (5/2) =
      .loop (Int.toNat ⌊(5/2 : ℚ) / 1⌋ + 1) (.file "m.mp3" 1)) ∧
    (¬ (1:ℚ) < 5/2 → bgm_looped (.file "m.mp3" 1) (5/2) = .file "m.mp3" 1) :=
  C4_bgm_exact_length "m.mp3" 1 (5/2) (by norm_num) (by norm_num)

/-- C5: if loading the background music fails, the render still succeeds
and returns the output path, the timeline (including its per-segment speech
audio) is exactly the one a no-music render produces, and the log records a
warning. -/
theorem C5_bgm_failure_nonfatal (segs : List SegmentTiming) (h : segs ≠ [])
    (e : String) (vol : ℚ) (out : String) :
    build_video_model segs (some (.error e)) vol out =
      .ok (out, build_timeline segs, ["Warning: Could not add BGM: " ++ e]) ∧
    build_video_model segs none vol out = .ok (out, build_timeline segs, []) := by
  have hne : segs.isEmpty = false := by
    cases segs with
    | nil => exact absurd rfl h
    | cons a l => rfl
  constructor <;> simp [build_video_model, hne, add_bgm]

/-- Witness for C5 at the one-segment script `[segEx]` with a corrupt
music file. -/
theorem C5_bgm_failure_nonfatal_witness :
    build_video_model [segEx] (some (.error "corrupt")) (1/10) "out.mp4" =
      .ok ("out.mp4", build_timeline [segEx],
        ["Warning: Could not add BGM: " ++ "corrupt"]) ∧
    build_video_model [segEx] none (1/10) "out.mp4" =
      .ok ("out.mp4", build_timeline [segEx], []) :=
  C5_bgm_failure_nonfatal [segEx] (List.cons_ne_nil _ _) "corrupt" (1/10) "out.mp4"

/-- C6 counterexample: a script consisting of one entry that has neither
`en` nor `ur` is accepted — `build_video` renders and encodes it, using
empty strings for both texts, instead of raising a fatal input error. -/
theorem C6_counterexample :
    build_video_steps (.list [⟨none, none, none, none⟩]) "out.mp4" =
      .ok [Step.validated, Step.rendered 0, Step.encoded "out.mp4"] ∧
    entry_en ⟨none, none, none, none⟩ = "" ∧
    entry_ur ⟨none, none, none, none⟩ = "" :=
  ⟨rfl, rfl, rfl⟩

/-- C6 (amended): an empty script and a non-list script value are fatal
input errors raised before any rendering or encoding step; but an entry
missing both `en` and `ur` is not rejected — any non-empty list of entries
is accepted, and absent texts default to the empty string. -/
theorem C6_script_validation_amended (out : String) (xs : List ScriptEntry)
    (e : ScriptEntry) (hxs : xs ≠ []) (hen : e.en = none) (hur : e.ur = none) :
    build_video_steps .other out =
      .error "Script must be a list of \x7ben, ur\x7d objects" ∧
    build_video_steps (.list []) out = .error "Script is empty" ∧
    (∃ steps, build_video_steps (.list xs) out = .ok steps) ∧
    entry_en e = "" ∧ entry_ur e = "" := by
  have hne : xs.isEmpty = false := by
    cases xs with
    | nil => exact absurd rfl hxs
    | cons a l => rfl
  refine ⟨rfl, rfl, ?_, ?_, ?_⟩
  · exact ⟨[Step.validated] ++ (List.range xs.length).map Step.rendered ++
      [Step.encoded out], by simp [build_video_steps, load_script, hne]⟩
  · simp [entry_en, hen]
  · simp [entry_ur, hur]

/-- Witness for the amended C6 at a one-entry script whose entry has no
keys at all. -/
theorem C6_script_validation_amended_witness :
    build_video_steps .other "out.mp4" =
      .error "Script must be a list of \x7ben, ur\x7d objects" ∧
    build_video_steps (.list []) "out.mp4" = .error "Script is empty" ∧
    (∃ steps, build_video_steps (.list [⟨none, none, none, none⟩]) "out.mp4" =
      .ok steps) ∧
    entry_en ⟨none, none, none, none⟩ = "" ∧
    entry_ur ⟨none, none, none, none⟩ = "" :=
  C6_script_validation_amended "out.mp4" [⟨none, none, none, none⟩]
    ⟨none, none, none, none⟩ (List.cons_ne_nil _ _) rfl rfl

/-- C7 counterexample: with no override and no config, a candidate set
containing only Arial makes `get_urdu_font_path` return the Arial path for
Urdu text — the Latin-font fallback the claim rules out — and that path
then loads without any error. -/
theorem C7_counterexample :
    get_urdu_font_path ⟨["C:/Windows/Fonts/arial.ttf"], none, [], []⟩ none =
      some "C:/Windows/Fonts/arial.ttf" ∧
    strIn "arial" (strLower (basename "C:/Windows/Fonts/arial.ttf")) = true ∧
    load_font ⟨["C:/Windows/Fonts/arial.ttf"], none, ["C:/Windows/Fonts/arial.ttf"],
        ["C:/Windows/Fonts/arial.ttf"]⟩ "" (some "C:/Windows/Fonts/arial.ttf") 64 =
      .ok ⟨"C:/Windows/Fonts/arial.ttf", 64⟩ :=
  ⟨by decide, by decide, rfl⟩

/-- C7 (amended): `load_font` itself is honest — a successful load returns
a font for exactly the requested path, any failure is an error whose
message names the requested path, and a `None` path errors as well; but
Urdu font *resolution* does silently substitute Arial: `"Arial"` is the
first preferred Urdu font name, so a system with only Arial resolves Urdu
text to Arial (see the counterexample). -/
theorem C7_font_loading_amended (env : FontEnv) (exc p : String) (size : ℕ) :
    (∀ f, load_font env exc (some p) size = .ok f → f.path = p ∧ f.size = size) ∧
    (∀ e, load_font env exc (some p) size = .error e →
      ∃ pre post, e = pre ++ p ++ post) ∧
    load_font env exc none size =
      .error "Font path is missing or does not exist: None" ∧
    PREFERRED_FONTS_URDU.headD "" = "Arial" := by
  refine ⟨?_, ?_, rfl, rfl⟩
  · intro f hf
    simp only [load_font] at hf
    split at hf
    · split at hf
      · simp only [Except.ok.injEq] at hf
        subst hf
        exact ⟨rfl, rfl⟩
      · exact absurd hf (by simp)
    · exact absurd hf (by simp)
  · intro e he
    simp only [load_font] at he
    split at he
    · split at he
      · exact absurd he (by simp)
      · simp only [Except.error.injEq] at he
        refine ⟨"Failed to load font at ", ": " ++ exc, ?_⟩
        rw [← he]
        simp [String.append_assoc]
    · simp only [Except.error.injEq] at he
      refine ⟨"Font path is missing or does not exist: " ++ sq, sq, ?_⟩
      rw [← he]
      simp [pyRepr, String.append_assoc]

/-- Witness for the amended C7: a loadable path yields a font at that
path, and a missing path yields an error embedding the path. -/
theorem C7_font_loading_amended_witness :
    ((Font.mk "f.ttf" 10).path = "f.ttf" ∧ (Font.mk "f.ttf" 10).size = 10) ∧
    ∃ pre post,
      ("Font path is missing or does not exist: " ++ pyRepr "missing.ttf") =
        pre ++ "missing.ttf" ++ post :=
  ⟨(C7_font_loading_amended ⟨["f.ttf"], none, ["f.ttf"], ["f.ttf"]⟩ "x" "f.ttf"
      10).1 ⟨"f.ttf", 10⟩ rfl,
   (C7_font_loading_amended ⟨[], none, [], []⟩ "boom" "missing.ttf" 10).2.1 _ rfl⟩

/-- C8 counterexample: a failure during encoding leaves an incomplete file
at the destination path, and even a successful run writes the file at the
destination directly — there is no temporary-location write and no rename
anywhere in the footprint. -/
theorem C8_counterexample :
    build_video_run true true (.encodeFail "ffmpeg error") "out.mp4" =
      ([FSEffect.incompleteFile "out.mp4"], .error "ffmpeg error") ∧
    build_video_run true true .ok "out.mp4" =
      ([FSEffect.completeFile "out.mp4"], .ok "out.mp4") :=
  ⟨rfl, rfl⟩

/-- C8 (amended): fatal errors raised before encoding — malformed script,
empty script, synthesis failure — leave nothing at the destination path,
because `write_videofile` is only reached after they would have been
raised; but the encode itself writes directly to the destination path with
no temporary-location-and-rename step, so an encoding failure can leave a
partial file there. -/
theorem C8_output_footprint_amended (out msg : String) :
    build_video_run false true .ok out =
      ([], .error "Script must be a list of \x7ben, ur\x7d objects") ∧
    build_video_run true false .ok out = ([], .error "Script is empty") ∧
    build_video_run true true (.synthFail msg) out = ([], .error msg) ∧
    build_video_run true true (.encodeFail msg) out =
      ([.incompleteFile out], .error msg) ∧
    build_video_run true true .ok out = ([.completeFile out], .ok out) :=
  ⟨rfl, rfl, rfl, rfl, rfl⟩

lemma wrapAux_join (w : String → ℕ) (sw maxW : ℕ) (cur ts : List String) :
    (wrapAux w sw maxW cur ts).flatten = cur ++ ts := by
  induction ts generalizing cur with
  | nil => simp [wrapAux]
  | cons t ts ih =>
    by_cases hfit : lineWidth w sw (cur ++ [t]) ≤ maxW
    · simp [wrapAux, hfit, ih]
    · simp [wrapAux, hfit, ih]

lemma wrapAux_lines (w : String → ℕ) (sw maxW : ℕ) (cur ts : List String)
    (hcur : cur ≠ []) (hok : cur.length = 1 ∨ lineWidth w sw cur ≤ maxW) :
    ∀ L ∈ wrapAux w sw maxW cur ts,
      L ≠ [] ∧ (L.length = 1 ∨ lineWidth w sw L ≤ maxW) := by
  induction ts generalizing cur with
  | nil =>
    intro L hL
    simp [wrapAux] at hL
    subst hL
    exact ⟨hcur, hok⟩
  | cons t ts ih =>
    intro L hL
    by_cases hfit : lineWidth w sw (cur ++ [t]) ≤ maxW
    · simp only [wrapAux, if_pos hfit] at hL
      exact ih (cur ++ [t]) (by simp) (Or.inr hfit) L hL
    · simp only [wrapAux, if_neg hfit] at hL
      rcases List.mem_cons.mp hL with h | h
      · subst h
        exact ⟨hcur, hok⟩
      · exact ih [t] (by simp) (Or.inl rfl) L h

lemma mem_le_lineWidth (w : String → ℕ) (sw : ℕ) (L : List String) (t : String)
    (ht : t ∈ L) : w t ≤ lineWidth w sw L := by
  unfold lineWidth
  have h : w t ≤ (L.map w).sum :=
    List.single_le_sum (fun _ _ => Nat.zero_le _) _ (List.mem_map_of_mem w ht)
  omega

lemma lineWidth_singleton (w : String → ℕ) (sw : ℕ) (t : String) :
    lineWidth w sw [t] = w t := by
  simp [lineWidth]

lemma wrapTokens_spec (w : String → ℕ) (sw maxW : ℕ) (ts : List String)
    (hwide : maxW < lineWidth w sw ts) :
    (wrapTokens w sw maxW ts).flatten = ts ∧
    (∀ L ∈ wrapTokens w sw maxW ts,
      L ≠ [] ∧ (lineWidth w sw L ≤ maxW ∨ ∃ t, L = [t] ∧ maxW < w t)) ∧
    (∀ L ∈ wrapTokens w sw maxW ts, ∀ t ∈ L, maxW < w t → L = [t]) ∧
    (2 ≤ ts.length → 2 ≤ (wrapTokens w sw maxW ts).length) ∧
    (ts.length = 1 → (wrapTokens w sw maxW ts).length = 1) := by
  have hlines : ∀ L ∈ wrapTokens w sw maxW ts,
      L ≠ [] ∧ (L.length = 1 ∨ lineWidth w sw L ≤ maxW) := by
    cases ts with
    | nil =>
      intro L hL
      simp [wrapTokens] at hL
    | cons a as => exact wrapAux_lines w sw maxW [a] as (by simp) (Or.inl rfl)
  have hjoin : (wrapTokens w sw maxW ts).flatten = ts := by
    cases ts with
    | nil => simp [wrapTokens]
    | cons a as => simpa [wrapTokens] using wrapAux_join w sw maxW [a] as
  have hprop : ∀ L ∈ wrapTokens w sw maxW ts,
      L ≠ [] ∧ (lineWidth w sw L ≤ maxW ∨ ∃ t, L = [t] ∧ maxW < w t) := by
    intro L hL
    obtain ⟨hne, hok⟩ := hlines L hL
    refine ⟨hne, ?_⟩
    rcases hok with h1 | h2
    · by_cases hw : lineWidth w sw L ≤ maxW
      · exact Or.inl hw
      · refine Or.inr ?_
        cases L with
        | nil => exact absurd rfl hne
        | cons x xs =>
          cases xs with
          | nil =>
            refine ⟨x, rfl, ?_⟩
            rw [lineWidth_singleton] at hw
            omega
          | cons y ys => simp at h1
    · exact Or.inl h2
  have halone : ∀ L ∈ wrapTokens w sw maxW ts, ∀ t ∈ L, maxW < w t → L = [t] := by
    intro L hL t ht hwt
    obtain ⟨hne, hok⟩ := hlines L hL
    rcases hok with h1 | h2
    · cases L with
      | nil => exact absurd ht (by simp)
      | cons x xs =>
        cases xs with
        | nil =>
          rcases List.mem_singleton.mp ht with rfl
          rfl
        | cons y ys => simp at h1
    · exact absurd (le_trans (mem_le_lineWidth w sw L t ht) h2) (not_le.mpr hwt)
  refine ⟨hjoin, hprop, halone, ?_, ?_⟩
  · intro hlen
    rcases hwp : wrapTokens w sw maxW ts with _ | ⟨L, rest⟩
    · rw [hwp] at hjoin
      simp only [List.flatten_nil] at hjoin
      rw [← hjoin] at hlen
      simp at hlen
    · rcases rest with _ | ⟨M, rest2⟩
      · rw [hwp] at hjoin
        simp only [List.flatten_cons, List.flatten_nil, List.append_nil] at hjoin
        obtain ⟨hne, hok⟩ := hlines L (by rw [hwp]; exact List.mem_singleton_self L)
        rcases hok with h1 | h2
        · rw [hjoin] at h1
          omega
        · rw [hjoin] at h2
          exact absurd h2 (not_le.mpr hwide)
      · simp
  · intro hlen
    cases ts with
    | nil => simp at hlen
    | cons a as =>
      cases as with
      | nil => simp [wrapTokens, wrapAux]
      | cons b bs => simp at hlen

lemma lineWidth_reverse (w : String → ℕ) (sw : ℕ) (L : List String) :
    lineWidth w sw L.reverse = lineWidth w sw L := by
  simp [lineWidth, List.sum_reverse]

/-- C9 counterexample: the non-empty text `"helloworld"` is a single
unbreakable token whose rendered width (200) exceeds `max_width = 100`,
yet both wrappers produce exactly one line, not the claimed two or more. -/
theorem C9_counterexample :
    "helloworld" ≠ "" ∧
    100 < lineWidth wEx 10 (tokenize "helloworld") ∧
    wrap_text_ltr wEx 10 100 "helloworld" = [["helloworld"]] ∧
    ¬ 2 ≤ (wrap_text_ltr wEx 10 100 "helloworld").length ∧
    wrap_text_rtl wEx 10 100 "helloworld" = [["helloworld"]] :=
  ⟨by decide, by decide, by decide, by decide, by decide⟩

/-- C9 (amended): for every string whose measured width exceeds
`max_width`, greedy wrapping (LTR and RTL alike) re-joins to the original
token sequence; every produced line is non-empty and either fits within
`max_width` or is a single token wider than `max_width`; an oversized token
is always alone on its line; the wrap produces at least 2 lines whenever
the text has at least two tokens, and exactly 1 line when the whole text is
a single (necessarily oversized) token — never an infinite loop or an
error. -/
theorem C9_wrap_amended (w : String → ℕ) (sw maxW : ℕ) (text : String)
    (hwide : maxW < lineWidth w sw (tokenize text)) :
    (wrap_text_ltr w sw maxW text).flatten = tokenize text ∧
    (∀ L ∈ wrap_text_ltr w sw maxW text,
      L ≠ [] ∧ (lineWidth w sw L ≤ maxW ∨ ∃ t, L = [t] ∧ maxW < w t)) ∧
    (∀ L ∈ wrap_text_ltr w sw maxW text, ∀ t ∈ L, maxW < w t → L = [t]) ∧
    (2 ≤ (tokenize text).length →
      2 ≤ (wrap_text_ltr w sw maxW text).length ∧
      2 ≤ (wrap_text_rtl w sw maxW text).length) ∧
    ((tokenize text).length = 1 → (wrap_text_ltr w sw maxW text).length = 1) ∧
    wrap_text_rtl w sw maxW text = (wrap_text_ltr w sw maxW text).map List.reverse ∧
    (∀ L ∈ wrap_text_rtl w sw maxW text,
      L ≠ [] ∧ (lineWidth w sw L ≤ maxW ∨ ∃ t, L = [t] ∧ maxW < w t)) := by
  obtain ⟨hjoin, hprop, halone, h2, h1⟩ := wrapTokens_spec w sw maxW (tokenize text) hwide
  refine ⟨hjoin, hprop, halone, ?_, h1, rfl, ?_⟩
  · intro hlen
    refine ⟨h2 hlen, ?_⟩
    have : (wrap_text_rtl w sw maxW text).length = (wrap_text_ltr w sw maxW text).length := by
      simp [wrap_text_rtl, wrap_text_ltr]
    rw [this]
    exact h2 hlen
  · intro L hL
    rw [wrap_text_rtl] at hL
    obtain ⟨M, hM, rfl⟩ := List.mem_map.mp hL
    obtain ⟨hne, hok⟩ := hprop M hM
    refine ⟨by simpa using hne, ?_⟩
    rcases hok with h | h
    · exact Or.inl (by rw [lineWidth_reverse]; exact h)
    · obtain ⟨t, rfl, hwt⟩ := h
      exact Or.inr ⟨t, by simp, hwt⟩

/-- Witness for the amended C9 at `"hello world example"` with a
20-pixels-per-character width, a 10-pixel space and a 100-pixel budget. -/
theorem C9_wrap_amended_witness :
    (wrap_text_ltr wEx 10 100 "hello world example").flatten =
      tokenize "hello world example" ∧
    (∀ L ∈ wrap_text_ltr wEx 10 100 "hello world example",
      L ≠ [] ∧ (lineWidth wEx 10 L ≤ 100 ∨ ∃ t, L = [t] ∧ 100 < wEx t)) ∧
    (∀ L ∈ wrap_text_ltr wEx 10 100 "hello world example",
      ∀ t ∈ L, 100 < wEx t → L = [t]) ∧
    (2 ≤ (tokenize "hello world example").length →
      2 ≤ (wrap_text_ltr wEx 10 100 "hello world example").length ∧
      2 ≤ (wrap_text_rtl wEx 10 100 "hello world example").length) ∧
    ((tokenize "hello world example").length = 1 →
      (wrap_text_ltr wEx 10 100 "hello world example").length = 1) ∧
    wrap_text_rtl wEx 10 100 "hello world example" =
      (wrap_text_ltr wEx 10 100 "hello world example").map List.reverse ∧
    (∀ L ∈ wrap_text_rtl wEx 10 100 "hello world example",
      L ≠ [] ∧ (lineWidth wEx 10 L ≤ 100 ∨ ∃ t, L = [t] ∧ 100 < wEx t)) :=
  C9_wrap_amended wEx 10 100 "hello world example" (by decide)

/-- Witness for C10 at `en=1, ur=2, pa=0, md=0, d=3`. -/
theorem C10_schedule_monotone_witness :
    (schedule 1 2 0 0).total_duration ≤ (schedule (1 + 3) 2 0 0).total_duration ∧
    (schedule 1 2 0 0).total_duration ≤ (schedule 1 (2 + 3) 0 0).total_duration ∧
    (schedule 1 2 0 0).total_duration ≤ (schedule 1 2 (0 + 3) 0).total_duration ∧
    (schedule 1 2 0 0).total_duration ≤ (schedule 1 2 0 (0 + 3)).total_duration ∧
    (schedule 1 (2 + 3) 0 0).ur_start = (schedule 1 2 0 0).ur_start ∧
    (schedule 1 2 (0 + 3) 0).ur_start = (schedule 1 2 0 0).ur_start ∧
    (schedule 1 2 0 (0 + 3)).ur_start = (schedule 1 2 0 0).ur_start :=
  C10_schedule_monotone 1 2 0 0 3 (by norm_num) (by norm_num) le_rfl le_rfl
    (by norm_num)

end TVG
